import Mathlib

/-!
Shallow embedding of `src/shiny/driver/windriver/windraw.c`, a minimal 2D
rectangle compositor: `mkbitmap` builds a BITMAPINFO and allocates a DIB
section, `blend` composites an intermediate bitmap onto a destination DC
with AlphaBlend (operator Over, `op == 0`) or BitBlt (operator Src), and
`fill` is the public entry point (FillRect): allocate, fill loop, blend,
DeleteObject.

Two views of the code are embedded, both translated line by line from the C
source:
* a trace semantics (`fillTrace`, `blendTrace`): the list of native API
  calls the straight-line C code performs, parameterised by the results the
  native layer returns (`Env`), used for sequencing and resource claims;
* a denotational pixel semantics (`fillPixels`, `blendSem`, `fillRectSem`):
  the effect on the bitmap memory and the destination surface.  The
  platform blit primitives are not part of this repository; their per-pixel
  effect is modelled from their documented semantics (BitBlt/SRCCOPY copies
  source pixels, AlphaBlend with AC_SRC_ALPHA and constant alpha 255
  computes dst = src + dst * (255 - srcAlpha) / 255 per channel) in the
  same-size-blit case, the only case `fill` produces.
-/

/-- A Win32 RECT: four integer edges. -/
structure Rect where
  left : Int
  top : Int
  right : Int
  bottom : Int
deriving DecidableEq, Repr

/-- Constant `BI_RGB` (uncompressed) from the Win32 headers. -/
def BI_RGB : Nat := 0

/-- Constant `AC_SRC_OVER` from the Win32 headers. -/
def AC_SRC_OVER : Nat := 0

/-- Constant `AC_SRC_ALPHA` (source alpha is premultiplied) from the Win32 headers. -/
def AC_SRC_ALPHA : Nat := 1

/-- Constant `SRCCOPY` raster operation from the Win32 headers. -/
def SRCCOPY : Nat := 0x00CC0020

/-- The fields of BITMAPINFOHEADER that `mkbitmap` assigns (all others are
left at the ZeroMemory default, which the record omits as irrelevant). -/
structure BitmapInfo where
  biWidth : Int
  biHeight : Int
  biPlanes : Nat
  biBitCount : Nat
  biCompression : Nat
  biSizeImage : Int
deriving DecidableEq, Repr

/-- The BITMAPINFO that `mkbitmap` builds for rectangle `r`
(windraw.c lines 13-23): `dx = r.right - r.left`, `dy = r.bottom - r.top`,
32 bits per pixel, BI_RGB, image size `dx*dy*4`, and negative height to
force top-down row order. -/
def mkbitmapInfo (r : Rect) : BitmapInfo :=
  let dx : Int := r.right - r.left
  let dy : Int := r.bottom - r.top
  { biWidth := dx
    biHeight := -dy
    biPlanes := 1
    biBitCount := 32
    biCompression := BI_RGB
    biSizeImage := dx * dy * 4 }

/-- Results the native layer hands back to the straight-line C code.
Handles are naturals; `0` is NULL (creation failure).  The code never
branches on these values (every failure check in windraw.c is an empty
TODO), so the trace shape depends only on `op`. -/
structure Env where
  bitmapHandle : Nat
  compatibleDC : Nat
  prevBitmap : Nat
deriving DecidableEq, Repr

/-- The BLENDFUNCTION record as `blend` fills it in. -/
structure BlendFunc where
  blendOp : Nat
  blendFlags : Nat
  sourceConstantAlpha : Nat
  alphaFormat : Nat
deriving DecidableEq, Repr

/-- One native-API call (or raw pixel store) performed by the code. -/
inductive Ev where
  | createDIBSection (dc : Nat) (bi : BitmapInfo) (result : Nat)
  | pixelWrite (index : Nat) (color : Nat)
  | createCompatibleDC (result : Nat)
  | selectObject (dc : Nat) (obj : Nat)
  | alphaBlend (dc : Nat) (xDest yDest wDest hDest : Int) (srcDC : Nat)
      (xSrc ySrc wSrc hSrc : Int) (fn : BlendFunc)
  | bitBlt (dc : Nat) (xDest yDest wDest hDest : Int) (srcDC : Nat)
      (xSrc ySrc : Int) (rop : Nat)
  | deleteDC (dc : Nat)
  | deleteObject (obj : Nat)
deriving DecidableEq, Repr

/-- Native calls of `mkbitmap dc r` (windraw.c lines 8-30): build the
BITMAPINFO and call CreateDIBSection; the result is returned unchecked. -/
def mkbitmapTrace (env : Env) (dc : Nat) (r : Rect) : List Ev :=
  [Ev.createDIBSection dc (mkbitmapInfo r) env.bitmapHandle]

/-- `nPixels = (r.right - r.left) * (r.bottom - r.top)` from windraw.c
line 84 (a signed quantity in the C source). -/
def nPixels (r : Rect) : Int :=
  (r.right - r.left) * (r.bottom - r.top)

/-- The stores of the fill loop (windraw.c lines 85-88): `color` is written
to consecutive 32-bit cells at indices `0 ≤ i < nPixels`; a non-positive
`nPixels` runs the loop zero times. -/
def fillWrites (r : Rect) (color : Nat) : List Ev :=
  (List.range (nPixels r).toNat).map (fun i => Ev.pixelWrite i color)

/-- Native calls of `blend dc bitmap dr sdx sdy op` (windraw.c lines
32-72): create a compatible DC, select the bitmap (retaining the previous
selection), AlphaBlend when `op == 0` (draw.Over) else BitBlt (draw.Src),
restore the previous selection, delete the compatible DC. -/
def blendTrace (env : Env) (dc : Nat) (bitmap : Nat) (dr : Rect)
    (sdx sdy : Int) (op : Nat) : List Ev :=
  [Ev.createCompatibleDC env.compatibleDC,
   Ev.selectObject env.compatibleDC bitmap]
  ++ (if op = 0 then
        [Ev.alphaBlend dc dr.left dr.top (dr.right - dr.left)
          (dr.bottom - dr.top) env.compatibleDC 0 0 sdx sdy
          { blendOp := AC_SRC_OVER, blendFlags := 0,
            sourceConstantAlpha := 255, alphaFormat := AC_SRC_ALPHA }]
      else
        [Ev.bitBlt dc dr.left dr.top (dr.right - dr.left)
          (dr.bottom - dr.top) env.compatibleDC 0 0 SRCCOPY])
  ++ [Ev.selectObject env.compatibleDC env.prevBitmap,
      Ev.deleteDC env.compatibleDC]

/-- Native calls of the public entry point `fill dc r color op`
(windraw.c lines 76-92): mkbitmap, the fill loop, blend with source
dimensions taken from `r`, DeleteObject.  The C function returns `void`:
no error is ever surfaced, whatever the native layer returned. -/
def fillTrace (env : Env) (dc : Nat) (r : Rect) (color : Nat) (op : Nat) :
    List Ev :=
  mkbitmapTrace env dc r
  ++ fillWrites r color
  ++ blendTrace env dc env.bitmapHandle r (r.right - r.left)
      (r.bottom - r.top) op
  ++ [Ev.deleteObject env.bitmapHandle]

/-- Recognises the raw pixel stores of the fill loop. -/
def isPixelWrite : Ev → Bool
  | Ev.pixelWrite _ _ => true
  | _ => false

/-- Number of whole-pixel stores in a trace. -/
def numPixelWrites (tr : List Ev) : Nat :=
  tr.countP isPixelWrite

/-- Recognises resource-creation calls (CreateDIBSection, CreateCompatibleDC). -/
def isCreation : Ev → Bool
  | Ev.createDIBSection _ _ _ => true
  | Ev.createCompatibleDC _ => true
  | _ => false

/-- Recognises resource-destruction calls (DeleteObject, DeleteDC). -/
def isDestruction : Ev → Bool
  | Ev.deleteDC _ => true
  | Ev.deleteObject _ => true
  | _ => false

/-- Recognises DeleteObject calls. -/
def isDeleteObject : Ev → Bool
  | Ev.deleteObject _ => true
  | _ => false

/-- Recognises CreateCompatibleDC calls. -/
def isCreateCompatibleDC : Ev → Bool
  | Ev.createCompatibleDC _ => true
  | _ => false

/-- The fill loop of windraw.c lines 85-88 over the bitmap memory, viewed
as a list of 32-bit cells: starting at cell index `i`, perform `fuel` more
iterations of `*colors = color; colors++`. -/
def fillIter (color : Nat) : Nat → List Nat → Nat → List Nat
  | 0, mem, _ => mem
  | fuel + 1, mem, i => fillIter color fuel (mem.set i color) (i + 1)

/-- The whole fill loop: `n` iterations starting at cell 0. -/
def fillPixels (color : Nat) (mem : List Nat) (n : Nat) : List Nat :=
  fillIter color n mem 0

/-- Channel `i` (0 = low byte) of a packed 32-bit pixel. -/
def chan (c : Nat) (i : Nat) : Nat := c / 256 ^ i % 256

/-- One channel of the AlphaBlend AC_SRC_OVER step with premultiplied
source alpha and constant alpha 255: dst = src + dst * (255 - srcAlpha) / 255
(saturated to a byte). -/
def acSrcOverChan (s d a : Nat) : Nat := min 255 (s + d * (255 - a) / 255)

/-- AlphaBlend's per-pixel composite of packed source `s` over packed
destination `d` (AC_SRC_OVER, AC_SRC_ALPHA, SourceConstantAlpha = 255):
each channel blends with the source's per-pixel alpha (channel 3). -/
def acSrcOver (s d : Nat) : Nat :=
  let a := chan s 3
  acSrcOverChan (chan s 0) (chan d 0) a
  + acSrcOverChan (chan s 1) (chan d 1) a * 256
  + acSrcOverChan (chan s 2) (chan d 2) a * 65536
  + acSrcOverChan (chan s 3) (chan d 3) a * 16777216

/-- Pixel effect of `blend dc bitmap dr sdx sdy op` on the destination
surface, for the same-size blit `fill` performs (source rectangle at the
origin, source and destination extents equal): inside the destination
block starting at (dr.left, dr.top) of extent (dr.right - dr.left) ×
(dr.bottom - dr.top), the source cell at the corresponding offset of the
top-down row-major bitmap memory `buf` is composited (AlphaBlend when
`op == 0`, plain SRCCOPY overwrite otherwise); pixels outside the block
are untouched.  An empty block mutates nothing, as the primitives do. -/
def blendSem (dest : Int → Int → Nat) (buf : List Nat) (dr : Rect)
    (op : Nat) : Int → Int → Nat :=
  fun x y =>
    if dr.left ≤ x ∧ x < dr.left + (dr.right - dr.left)
        ∧ dr.top ≤ y ∧ y < dr.top + (dr.bottom - dr.top) then
      let s := buf.getD ((y - dr.top) * (dr.right - dr.left)
        + (x - dr.left)).toNat 0
      if op = 0 then acSrcOver s (dest x y) else s
    else dest x y

/-- Pixel effect of the public entry point `fill dc r color op` on the
destination surface: allocate `nPixels r` cells, run the fill loop over
all of them, blend the result onto `dest` at `r`. -/
def fillRectSem (dest : Int → Int → Nat) (r : Rect) (color : Nat)
    (op : Nat) : Int → Int → Nat :=
  blendSem dest
    (fillPixels color (List.replicate (nPixels r).toNat 0) (nPixels r).toNat)
    r op

/-- A native layer where CreateDIBSection fails (returns NULL) while the
other calls succeed. -/
def envAllocFail : Env :=
  { bitmapHandle := 0, compatibleDC := 7, prevBitmap := 3 }

lemma fillIter_length (color : Nat) :
    ∀ (fuel : Nat) (mem : List Nat) (i : Nat),
      (fillIter color fuel mem i).length = mem.length := by
  intro fuel
  induction fuel with
  | zero => intro mem i; rfl
  | succ n ih =>
    intro mem i
    rw [fillIter, ih, List.length_set]

lemma fillIter_getElem?_lt (color : Nat) :
    ∀ (fuel : Nat) (mem : List Nat) (i k : Nat), k < i →
      (fillIter color fuel mem i)[k]? = mem[k]? := by
  intro fuel
  induction fuel with
  | zero => intro mem i k _; rfl
  | succ n ih =>
    intro mem i k hk
    rw [fillIter, ih (mem.set i color) (i + 1) k (by omega),
      List.getElem?_set_ne (by omega)]

lemma fillIter_getD_of_lt (color : Nat) :
    ∀ (fuel : Nat) (mem : List Nat) (i k : Nat),
      i ≤ k → k < i + fuel → k < mem.length →
      (fillIter color fuel mem i).getD k 0 = color := by
  intro fuel
  induction fuel with
  | zero => intro mem i k h1 h2 _; omega
  | succ n ih =>
    intro mem i k h1 h2 h3
    rw [fillIter]
    rcases Nat.eq_or_lt_of_le h1 with rfl | hlt
    · rw [List.getD_eq_getD_get?, List.get?_eq_getElem?,
        fillIter_getElem?_lt color n (mem.set i color) (i + 1) i (by omega),
        List.getElem?_set_eq_of_lt color h3]
      rfl
    · exact ih (mem.set i color) (i + 1) k hlt (by omega)
        (by rw [List.length_set]; exact h3)

lemma fillPixels_length (color : Nat) (mem : List Nat) (n : Nat) :
    (fillPixels color mem n).length = mem.length :=
  fillIter_length color n mem 0

lemma fillPixels_getD (color : Nat) (mem : List Nat) (n k : Nat)
    (hm : mem.length = n) (hk : k < n) :
    (fillPixels color mem n).getD k 0 = color :=
  fillIter_getD_of_lt color n mem 0 k (Nat.zero_le k) (by omega) (by omega)

lemma chan_lt (c i : Nat) : chan c i < 256 :=
  Nat.mod_lt _ (by norm_num)

lemma acSrcOver_opaque (s d : Nat) (hs : s < 4294967296)
    (ha : chan s 3 = 255) : acSrcOver s d = s := by
  unfold chan at ha
  norm_num at ha
  unfold acSrcOver acSrcOverChan chan
  norm_num [ha]
  omega

lemma inRect_index_lt {l t ri b x y : Int} (hx1 : l ≤ x) (hx2 : x < ri)
    (hy1 : t ≤ y) (hy2 : y < b) :
    ((y - t) * (ri - l) + (x - l)).toNat < ((ri - l) * (b - t)).toNat := by
  have h1 : 0 ≤ (y - t) * (ri - l) := mul_nonneg (by omega) (by omega)
  have h3 : (y - t) * (ri - l) ≤ (b - t - 1) * (ri - l) :=
    mul_le_mul_of_nonneg_right (by omega) (by omega)
  have h2 : (y - t) * (ri - l) + (x - l) < (ri - l) * (b - t) := by
    nlinarith [h3]
  omega

lemma fillRect_buf_cell {r : Rect} {c : Nat} {x y : Int}
    (hx1 : r.left ≤ x) (hx2 : x < r.right)
    (hy1 : r.top ≤ y) (hy2 : y < r.bottom) :
    (fillPixels c (List.replicate (nPixels r).toNat 0)
        (nPixels r).toNat).getD
      ((y - r.top) * (r.right - r.left) + (x - r.left)).toNat 0 = c := by
  apply fillPixels_getD
  · exact List.length_replicate _ _
  · exact inRect_index_lt hx1 hx2 hy1 hy2

lemma countP_isPixelWrite_fillWrites (r : Rect) (color : Nat) :
    (fillWrites r color).countP isPixelWrite = (nPixels r).toNat := by
  rw [fillWrites,
    List.countP_eq_length.mpr (fun a ha => by
      obtain ⟨i, _, rfl⟩ := List.mem_map.mp ha
      rfl),
    List.length_map, List.length_range]

lemma numPixelWrites_fillTrace (env : Env) (dc : Nat) (r : Rect)
    (color op : Nat) :
    numPixelWrites (fillTrace env dc r color op) = (nPixels r).toNat := by
  by_cases hop : op = 0 <;>
    simp [numPixelWrites, fillTrace, mkbitmapTrace, blendTrace,
      hop, List.countP_append, countP_isPixelWrite_fillWrites,
      isPixelWrite]

/-- Claim C1: for every rectangle with non-negative width
`w = r.right - r.left` and height `h = r.bottom - r.top` and every 32-bit
color, after Fill the bitmap memory contains exactly `w*h` cells and every
one of them equals the color exactly; moreover the fill loop performs
exactly `w*h` whole-pixel stores and the trace contains no other stores. -/
theorem fill_fills_every_cell (env : Env) (dc : Nat) (r : Rect)
    (color op : Nat) (mem : List Nat)
    (hw : 0 ≤ r.right - r.left) (hh : 0 ≤ r.bottom - r.top)
    (hm : mem.length = (nPixels r).toNat) :
    (fillPixels color mem (nPixels r).toNat).length
        = (r.right - r.left).toNat * (r.bottom - r.top).toNat
    ∧ (∀ k, k < (r.right - r.left).toNat * (r.bottom - r.top).toNat →
        (fillPixels color mem (nPixels r).toNat).getD k 0 = color)
    ∧ numPixelWrites (fillTrace env dc r color op)
        = (r.right - r.left).toNat * (r.bottom - r.top).toNat := by
  have hwh : (nPixels r).toNat
      = (r.right - r.left).toNat * (r.bottom - r.top).toNat := by
    conv_lhs => rw [nPixels, ← Int.toNat_of_nonneg hw,
      ← Int.toNat_of_nonneg hh]
    rw [← Nat.cast_mul, Int.toNat_natCast]
  refine ⟨?_, ?_, ?_⟩
  · rw [fillPixels_length, hm, hwh]
  · intro k hk
    exact fillPixels_getD color mem _ k hm (by omega)
  · rw [numPixelWrites_fillTrace, hwh]

/-- Claim C1 witness: a 2×3 rectangle, color 7. -/
theorem fill_fills_every_cell_witness :
    ((0:Int) ≤ 2 - 0 ∧ (0:Int) ≤ 3 - 0
      ∧ (List.replicate 6 0).length = (nPixels ⟨0, 0, 2, 3⟩).toNat)
    ∧ ((fillPixels 7 (List.replicate 6 0) (nPixels ⟨0, 0, 2, 3⟩).toNat).length
          = ((2:Int) - 0).toNat * ((3:Int) - 0).toNat
      ∧ (∀ k, k < ((2:Int) - 0).toNat * ((3:Int) - 0).toNat →
          (fillPixels 7 (List.replicate 6 0)
            (nPixels ⟨0, 0, 2, 3⟩).toNat).getD k 0 = 7)
      ∧ numPixelWrites (fillTrace ⟨2, 3, 4⟩ 1 ⟨0, 0, 2, 3⟩ 7 0)
          = ((2:Int) - 0).toNat * ((3:Int) - 0).toNat) :=
  ⟨⟨by norm_num, by norm_num, by decide⟩,
    fill_fills_every_cell ⟨2, 3, 4⟩ 1 ⟨0, 0, 2, 3⟩ 7 0
      (List.replicate 6 0) (by norm_num) (by norm_num) (by decide)⟩

/-- Claim C9: for every rectangle, the builder requests a bitmap with
exactly 32 bits per pixel, uncompressed (BI_RGB), image size
`width * height * 4` bytes, and a negated height — the explicit request
for top-down row order (strictly negative whenever the rectangle has
positive height, overriding the bottom-up native default). -/
theorem mkbitmap_requests_topdown_32bpp (r : Rect) :
    (mkbitmapInfo r).biBitCount = 32
    ∧ (mkbitmapInfo r).biCompression = BI_RGB
    ∧ (mkbitmapInfo r).biSizeImage
        = (r.right - r.left) * (r.bottom - r.top) * 4
    ∧ (mkbitmapInfo r).biHeight = -(r.bottom - r.top)
    ∧ (0 < r.bottom - r.top → (mkbitmapInfo r).biHeight < 0) := by
  refine ⟨rfl, rfl, rfl, rfl, ?_⟩
  intro h
  simp only [mkbitmapInfo]
  omega

/-- Claim C9 witness: the 2×3 rectangle. -/
theorem mkbitmap_requests_topdown_32bpp_witness :
    (mkbitmapInfo ⟨0, 0, 2, 3⟩).biBitCount = 32
    ∧ (mkbitmapInfo ⟨0, 0, 2, 3⟩).biCompression = BI_RGB
    ∧ (mkbitmapInfo ⟨0, 0, 2, 3⟩).biSizeImage
        = ((2:Int) - 0) * ((3:Int) - 0) * 4
    ∧ (mkbitmapInfo ⟨0, 0, 2, 3⟩).biHeight = -((3:Int) - 0)
    ∧ (0 < (3:Int) - 0 → (mkbitmapInfo ⟨0, 0, 2, 3⟩).biHeight < 0) :=
  mkbitmap_requests_topdown_32bpp ⟨0, 0, 2, 3⟩

/-- Claim C10: a degenerate rectangle (width 0 or height 0) makes the
fill loop perform zero pixel stores and the blend leave every destination
pixel unchanged; the call still runs to completion (the semantics is a
total function). -/
theorem degenerate_rect_is_noop (env : Env) (dc : Nat)
    (dest : Int → Int → Nat) (r : Rect) (color op : Nat) (x y : Int)
    (hdeg : r.right - r.left = 0 ∨ r.bottom - r.top = 0) :
    numPixelWrites (fillTrace env dc r color op) = 0
    ∧ fillRectSem dest r color op x y = dest x y := by
  constructor
  · rw [numPixelWrites_fillTrace]
    rcases hdeg with h | h <;> simp [nPixels, h]
  · have hc : ¬(r.left ≤ x ∧ x < r.left + (r.right - r.left)
        ∧ r.top ≤ y ∧ y < r.top + (r.bottom - r.top)) := by
      rcases hdeg with h | h <;> omega
    simp only [fillRectSem, blendSem]
    rw [if_neg hc]

/-- Claim C10 witness: a width-zero rectangle over a constant surface. -/
theorem degenerate_rect_is_noop_witness :
    ((1:Int) - 1 = 0 ∨ (9:Int) - 5 = 0)
    ∧ numPixelWrites (fillTrace ⟨2, 3, 4⟩ 1 ⟨1, 5, 1, 9⟩ 7 0) = 0
    ∧ fillRectSem (fun _ _ => 3) ⟨1, 5, 1, 9⟩ 7 0 1 6 = 3 :=
  ⟨Or.inl (by norm_num),
    degenerate_rect_is_noop ⟨2, 3, 4⟩ 1 (fun _ _ => 3) ⟨1, 5, 1, 9⟩ 7 0 1 6
      (Or.inl (by norm_num))⟩

/-- Claim C2: every call to the public entry point performs exactly this
sequence of native calls: CreateDIBSection for a bitmap sized to the
rectangle, the fill loop's stores, the blend (compatible DC, select the
bitmap, one AlphaBlend or BitBlt whose source dimensions are exactly the
destination rectangle's width and height, restore, DeleteDC), and finally
DeleteObject on the bitmap. -/
theorem fillRect_sequence (env : Env) (dc : Nat) (r : Rect)
    (color op : Nat) :
    fillTrace env dc r color op =
      [Ev.createDIBSection dc (mkbitmapInfo r) env.bitmapHandle]
      ++ fillWrites r color
      ++ ([Ev.createCompatibleDC env.compatibleDC,
           Ev.selectObject env.compatibleDC env.bitmapHandle]
          ++ (if op = 0 then
                [Ev.alphaBlend dc r.left r.top (r.right - r.left)
                  (r.bottom - r.top) env.compatibleDC 0 0
                  (r.right - r.left) (r.bottom - r.top)
                  { blendOp := AC_SRC_OVER, blendFlags := 0,
                    sourceConstantAlpha := 255,
                    alphaFormat := AC_SRC_ALPHA }]
              else
                [Ev.bitBlt dc r.left r.top (r.right - r.left)
                  (r.bottom - r.top) env.compatibleDC 0 0 SRCCOPY])
          ++ [Ev.selectObject env.compatibleDC env.prevBitmap,
              Ev.deleteDC env.compatibleDC])
      ++ [Ev.deleteObject env.bitmapHandle] := rfl

/-- Claim C5: with operator Over (`op == 0`), Blend performs exactly one
AlphaBlend with constant opacity 255, premultiplied source-alpha format
(AC_SRC_ALPHA), source rectangle at the origin sized
`sourceWidth × sourceHeight`, and destination rectangle placed at
(left, top) and sized (right - left, bottom - top). -/
theorem blend_over_invokes_alphaBlend (env : Env) (dc bitmap : Nat)
    (dr : Rect) (sdx sdy : Int) :
    blendTrace env dc bitmap dr sdx sdy 0 =
      [Ev.createCompatibleDC env.compatibleDC,
       Ev.selectObject env.compatibleDC bitmap,
       Ev.alphaBlend dc dr.left dr.top (dr.right - dr.left)
         (dr.bottom - dr.top) env.compatibleDC 0 0 sdx sdy
         { blendOp := AC_SRC_OVER, blendFlags := 0,
           sourceConstantAlpha := 255, alphaFormat := AC_SRC_ALPHA },
       Ev.selectObject env.compatibleDC env.prevBitmap,
       Ev.deleteDC env.compatibleDC] := by
  simp [blendTrace]

/-- Claim C6: with operator Src (`op != 0`), Blend performs exactly one
BitBlt (direct SRCCOPY block copy) at the destination rectangle's origin
sized from its edges, and after the whole FillRect every destination
pixel inside the rectangle equals the fill color, regardless of the
previous destination contents. -/
theorem src_overwrites_rect (env : Env) (dc bitmap : Nat)
    (dest : Int → Int → Nat) (r : Rect) (color op : Nat) (x y : Int)
    (hop : op ≠ 0) (hx1 : r.left ≤ x) (hx2 : x < r.right)
    (hy1 : r.top ≤ y) (hy2 : y < r.bottom) :
    blendTrace env dc bitmap r (r.right - r.left) (r.bottom - r.top) op =
      [Ev.createCompatibleDC env.compatibleDC,
       Ev.selectObject env.compatibleDC bitmap,
       Ev.bitBlt dc r.left r.top (r.right - r.left) (r.bottom - r.top)
         env.compatibleDC 0 0 SRCCOPY,
       Ev.selectObject env.compatibleDC env.prevBitmap,
       Ev.deleteDC env.compatibleDC]
    ∧ fillRectSem dest r color op x y = color := by
  constructor
  · simp [blendTrace, hop]
  · simp only [fillRectSem, blendSem]
    rw [if_pos ⟨hx1, by omega, hy1, by omega⟩, if_neg hop]
    exact fillRect_buf_cell hx1 hx2 hy1 hy2

/-- Claim C6 witness: a 2×2 rectangle at (1,1), color 9, over a surface
previously holding 4 everywhere, read back at (2,2). -/
theorem src_overwrites_rect_witness :
    ((1:Nat) ≠ 0 ∧ (1:Int) ≤ 2 ∧ (2:Int) < 3 ∧ (1:Int) ≤ 2 ∧ (2:Int) < 3)
    ∧ (blendTrace ⟨2, 3, 4⟩ 1 2 ⟨1, 1, 3, 3⟩ ((3:Int) - 1) ((3:Int) - 1) 1 =
        [Ev.createCompatibleDC 3, Ev.selectObject 3 2,
         Ev.bitBlt 1 1 1 ((3:Int) - 1) ((3:Int) - 1) 3 0 0 SRCCOPY,
         Ev.selectObject 3 4, Ev.deleteDC 3]
      ∧ fillRectSem (fun _ _ => 4) ⟨1, 1, 3, 3⟩ 9 1 2 2 = 9) :=
  ⟨⟨by norm_num, by norm_num, by norm_num, by norm_num, by norm_num⟩,
    src_overwrites_rect ⟨2, 3, 4⟩ 1 2 (fun _ _ => 4) ⟨1, 1, 3, 3⟩ 9 1 2 2
      (by norm_num) (by norm_num) (by norm_num) (by norm_num) (by norm_num)⟩

/-- Claim C7: for any destination surface and rectangle, filling with a
fully opaque premultiplied color (alpha channel 255) under operator Over
produces exactly the same destination surface as operator Src. -/
theorem over_opaque_eq_src (dest : Int → Int → Nat) (r : Rect)
    (color : Nat) (x y : Int) (hc : color < 4294967296)
    (ha : chan color 3 = 255) :
    fillRectSem dest r color 0 x y = fillRectSem dest r color 1 x y := by
  simp only [fillRectSem, blendSem]
  by_cases h : r.left ≤ x ∧ x < r.left + (r.right - r.left)
      ∧ r.top ≤ y ∧ y < r.top + (r.bottom - r.top)
  · rw [if_pos h, if_pos h]
    obtain ⟨h1, h2, h3, h4⟩ := h
    have hs := fillRect_buf_cell (r := r) (c := color) h1 (by omega) h3
      (by omega)
    rw [if_pos trivial, if_neg (by norm_num : ¬(1:Nat) = 0), hs]
    exact acSrcOver_opaque color (dest x y) hc ha
  · rw [if_neg h, if_neg h]

/-- Claim C7 witness: opaque premultiplied white-ish color 0xFF123456
over a constant surface, inside a 2×2 rectangle. -/
theorem over_opaque_eq_src_witness :
    ((4279383126:Nat) < 4294967296 ∧ chan 4279383126 3 = 255)
    ∧ fillRectSem (fun _ _ => 287454020) ⟨0, 0, 2, 2⟩ 4279383126 0 1 1
        = fillRectSem (fun _ _ => 287454020) ⟨0, 0, 2, 2⟩ 4279383126 1 1 1 :=
  ⟨⟨by norm_num, by decide⟩,
    over_opaque_eq_src (fun _ _ => 287454020) ⟨0, 0, 2, 2⟩ 4279383126 1 1
      (by norm_num) (by decide)⟩

lemma countP_fillWrites_eq_zero (r : Rect) (color : Nat) (p : Ev → Bool)
    (hp : ∀ i c, p (Ev.pixelWrite i c) = false) :
    (fillWrites r color).countP p = 0 := by
  rw [fillWrites]
  refine List.countP_eq_zero.mpr (fun a ha => ?_)
  obtain ⟨i, _, rfl⟩ := List.mem_map.mp ha
  simp [hp]

/-- Claim C4: for every call (with any native-layer results, so on every
exit path the straight-line code has), the number of creation calls
equals the number of destruction calls, the bitmap handed back by
CreateDIBSection is passed to DeleteObject exactly once, and the
compatible DC is passed to DeleteDC exactly once. -/
theorem fillRect_balanced_resources (env : Env) (dc : Nat) (r : Rect)
    (color op : Nat) :
    (fillTrace env dc r color op).countP isCreation
      = (fillTrace env dc r color op).countP isDestruction
    ∧ (fillTrace env dc r color op).countP
        (fun e => decide (e = Ev.deleteObject env.bitmapHandle)) = 1
    ∧ (fillTrace env dc r color op).countP
        (fun e => decide (e = Ev.deleteDC env.compatibleDC)) = 1 := by
  by_cases hop : op = 0 <;>
    refine ⟨?_, ?_, ?_⟩ <;>
      simp [fillTrace, mkbitmapTrace, blendTrace, hop,
        List.countP_append, List.countP_cons,
        countP_fillWrites_eq_zero, isCreation, isDestruction]

/-- Claim C8: in every execution, the previously selected drawable is
restored into the intermediate context before that context is destroyed,
and the bitmap's DeleteObject comes only after both; no DeleteObject
occurs anywhere earlier in the call. -/
theorem blend_restores_before_bitmap_destroyed (env : Env) (dc : Nat)
    (r : Rect) (color op : Nat) :
    ∃ pre : List Ev,
      fillTrace env dc r color op =
        pre ++ [Ev.selectObject env.compatibleDC env.prevBitmap,
                Ev.deleteDC env.compatibleDC,
                Ev.deleteObject env.bitmapHandle]
      ∧ pre.countP isDeleteObject = 0 := by
  refine ⟨mkbitmapTrace env dc r ++ fillWrites r color
    ++ ([Ev.createCompatibleDC env.compatibleDC,
         Ev.selectObject env.compatibleDC env.bitmapHandle]
        ++ (if op = 0 then
              [Ev.alphaBlend dc r.left r.top (r.right - r.left)
                (r.bottom - r.top) env.compatibleDC 0 0
                (r.right - r.left) (r.bottom - r.top)
                { blendOp := AC_SRC_OVER, blendFlags := 0,
                  sourceConstantAlpha := 255,
                  alphaFormat := AC_SRC_ALPHA }]
            else
              [Ev.bitBlt dc r.left r.top (r.right - r.left)
                (r.bottom - r.top) env.compatibleDC 0 0 SRCCOPY])),
    ?_, ?_⟩
  · by_cases hop : op = 0 <;>
      simp [fillTrace, mkbitmapTrace, blendTrace, hop]
  · by_cases hop : op = 0 <;>
      simp [mkbitmapTrace, hop, List.countP_append, List.countP_cons,
        countP_fillWrites_eq_zero, isDeleteObject]

/-- Claim C3 is violated by the code: when CreateDIBSection fails (returns
NULL), `fill` still performs its pixel store (through the stale pixel
pointer) and still proceeds to create the compatible DC and blend, and the
`void` entry point surfaces no error of any kind.  Evaluated here on a 1×1
rectangle with a failing allocator. -/
theorem fill_swallows_alloc_failure :
    numPixelWrites (fillTrace envAllocFail 1 ⟨0, 0, 1, 1⟩ 5 0) = 1
    ∧ (fillTrace envAllocFail 1 ⟨0, 0, 1, 1⟩ 5 0).countP
        isCreateCompatibleDC = 1 := by
  decide
